import Mathlib

/-!
Verification of the XiBao/logger error-tracking bridge.

This file shallowly embeds the core of the repository: the zerolog-to-Sentry
level mapping table, the stack-trace trimmer, the log-record event parser
(both writer generations in zlogsentry/writer.go), the write/dispatch sinks,
and the hook-side event conversion (hook/sentry).

Modelling conventions:
- zerolog.Level is an int8 in Go; it is embedded as Int (named constants for
  the enumerated levels).  sentry.Level is a string type in Go; it is embedded
  as String.
- A serialized log record is embedded at the level of its gjson view: the byte
  length of the input plus the ordered key/value pairs that
  gjson.ParseBytes(data).ForEach iterates (an object's members in document
  order).  JSON values are the inductive JValue.
- Wall-clock effects (event timestamps) are not embedded.  Calls into the
  Sentry client (CaptureEvent, AddBreadcrumb, Flush) are embedded as an
  emitted list of SentryCall values.
- External library functions used by the bridge (zerolog.ParseLevel,
  gjson Result.String, encoding/json unmarshalling, strconv) are embedded
  from their stable published behaviour at the versions pinned in go.mod.
-/

/-- JSON values as seen through gjson: strings, numbers (carrying their raw
decimal text), booleans, null, arrays and objects (members in document
order, duplicates allowed). -/
inductive JValue where
  | str (s : String)
  | num (raw : String)
  | bool (b : Bool)
  | null
  | arr (elems : List JValue)
  | obj (fields : List (String × JValue))

/-- Escape one character the way encoding/json does (HTML escaping on):
quote, backslash, newline, carriage return, tab, other control characters,
and the characters lt, gt, amp. -/
def escapeChar (c : Char) : String :=
  if c = '"' then "\\\""
  else if c = '\\' then "\\\\"
  else if c = '\n' then "\\n"
  else if c = '\r' then "\\r"
  else if c = '\t' then "\\t"
  else if c = '<' then "\\u003c"
  else if c = '>' then "\\u003e"
  else if c = '&' then "\\u0026"
  else if c.toNat < 32 then
    let hex : Nat → String := fun n =>
      String.mk [(Nat.digitChar (n / 16)), (Nat.digitChar (n % 16))]
    "\\u00" ++ hex c.toNat
  else String.mk [c]

/-- Quote a string as a JSON string literal, escaping as encoding/json does. -/
def jsonQuote (s : String) : String :=
  "\"" ++ String.join (s.toList.map escapeChar) ++ "\""

mutual

/-- Compact JSON rendering of a value; stands in for gjson's Result.Raw
(original whitespace of the source document is not preserved by the model). -/
def jraw : JValue → String
  | .str s => jsonQuote s
  | .num raw => raw
  | .bool true => "true"
  | .bool false => "false"
  | .null => "null"
  | .arr es => "[" ++ jrawArr es ++ "]"
  | .obj fs => "\x7b" ++ jrawObj fs ++ "\x7d"

/-- Comma-joined rendering of array elements. -/
def jrawArr : List JValue → String
  | [] => ""
  | [v] => jraw v
  | v :: rest => jraw v ++ "," ++ jrawArr rest

/-- Comma-joined rendering of object members. -/
def jrawObj : List (String × JValue) → String
  | [] => ""
  | [kv] => jsonQuote kv.1 ++ ":" ++ jraw kv.2
  | kv :: rest => jsonQuote kv.1 ++ ":" ++ jraw kv.2 ++ "," ++ jrawObj rest

end

/-- gjson Result.String(): null renders as empty, booleans as true/false,
strings as their content, numbers as their raw decimal text, and nested
JSON as its raw form. -/
def jstr : JValue → String
  | .null => ""
  | .bool true => "true"
  | .bool false => "false"
  | .str s => s
  | .num raw => raw
  | .arr es => jraw (.arr es)
  | .obj fs => jraw (.obj fs)

/-- A byte input to a sink, abstracted as its length together with the
key/value pairs gjson iterates over it. -/
structure RecordBytes where
  len : Nat
  fields : List (String × JValue)

/-- First member of the object with the given key, as gjson.GetBytes finds it. -/
def jsonGet (fields : List (String × JValue)) (key : String) : Option JValue :=
  (fields.find? (fun kv => kv.1 = key)).map (fun kv => kv.2)

/-- gjson.GetBytes(data, key).String(): empty string when the key is absent. -/
def gjsonGetString (d : RecordBytes) (key : String) : String :=
  match jsonGet d.fields key with
  | none => ""
  | some v => jstr v

/-- zerolog default field name for the level. -/
def levelFieldName : String := "level"

/-- zerolog default field name for the message. -/
def messageFieldName : String := "message"

/-- zerolog default field name for errors. -/
def errorFieldName : String := "error"

/-- zerolog default field name for error stacks. -/
def errorStackFieldName : String := "stack"

/-- zerolog default field name for the timestamp. -/
def timestampFieldName : String := "time"

/-- zerolog.TraceLevel. -/
def zTraceLevel : Int := -1

/-- zerolog.DebugLevel. -/
def zDebugLevel : Int := 0

/-- zerolog.InfoLevel. -/
def zInfoLevel : Int := 1

/-- zerolog.WarnLevel. -/
def zWarnLevel : Int := 2

/-- zerolog.ErrorLevel. -/
def zErrorLevel : Int := 3

/-- zerolog.FatalLevel. -/
def zFatalLevel : Int := 4

/-- zerolog.PanicLevel. -/
def zPanicLevel : Int := 5

/-- zerolog.NoLevel. -/
def zNoLevel : Int := 6

/-- zerolog.Disabled. -/
def zDisabled : Int := 7

/-- zerolog Level.String(): names for the enumerated levels, empty for
NoLevel, decimal text otherwise. -/
def zlevelString (l : Int) : String :=
  if l = zTraceLevel then "trace"
  else if l = zDebugLevel then "debug"
  else if l = zInfoLevel then "info"
  else if l = zWarnLevel then "warn"
  else if l = zErrorLevel then "error"
  else if l = zFatalLevel then "fatal"
  else if l = zPanicLevel then "panic"
  else if l = zDisabled then "disabled"
  else if l = zNoLevel then ""
  else toString l

/-- Go strconv.Atoi restricted to its success shape: an optional sign
followed by at least one digit.  Inputs past the int64 range differ only in
the error message ParseLevel then produces, which no caller inspects. -/
def goAtoi (s : String) : Option Int :=
  match s.toList with
  | [] => none
  | c :: rest =>
    let signed : Bool × List Char :=
      if c = '-' then (true, rest)
      else if c = '+' then (false, rest)
      else (false, c :: rest)
    if signed.2 = [] then none
    else if signed.2.all Char.isDigit then
      let n : Nat := signed.2.foldl (fun acc d => acc * 10 + (d.toNat - 48)) 0
      some (if signed.1 then -(n : Int) else (n : Int))
    else none

/-- ASCII lowering of one character, the effect of strings.EqualFold on the
ASCII range (the only range level names occupy). -/
def asciiLowerChar (c : Char) : Char :=
  if 65 ≤ c.toNat ∧ c.toNat ≤ 90 then Char.ofNat (c.toNat + 32) else c

/-- ASCII lowering of a string. -/
def asciiLower (s : String) : String :=
  String.mk (s.toList.map asciiLowerChar)

/-- zerolog.ParseLevel: case-insensitive match against the marshalled level
names (NoLevel marshals to the empty string, so an empty level string parses
successfully as NoLevel), then a numeric fallback checked against the int8
range. -/
def goParseLevel (s : String) : Int × Option String :=
  let ls := asciiLower s
  if ls = "trace" then (zTraceLevel, none)
  else if ls = "debug" then (zDebugLevel, none)
  else if ls = "info" then (zInfoLevel, none)
  else if ls = "warn" then (zWarnLevel, none)
  else if ls = "error" then (zErrorLevel, none)
  else if ls = "fatal" then (zFatalLevel, none)
  else if ls = "panic" then (zPanicLevel, none)
  else if ls = "disabled" then (zDisabled, none)
  else if ls = "" then (zNoLevel, none)
  else
    match goAtoi s with
    | none =>
      (zNoLevel, some ("Unknown Level String: '" ++ s ++ "', defaulting to NoLevel"))
    | some i =>
      if i > 127 ∨ i < -128 then
        (zNoLevel, some ("Out-Of-Range Level: '" ++ toString i ++ "', defaulting to NoLevel"))
      else (i, none)

/-- The levelsMapping table of zlogsentry/writer.go: zerolog levels to
sentry levels (sentry.Level is a string type). -/
def levelsMapping (l : Int) : Option String :=
  if l = zDebugLevel then some "debug"
  else if l = zInfoLevel then some "info"
  else if l = zWarnLevel then some "warning"
  else if l = zErrorLevel then some "error"
  else if l = zFatalLevel then some "fatal"
  else if l = zPanicLevel then some "fatal"
  else none

/-- Module path constant of zlogsentry's newStacktrace. -/
def zlogsentryModule : String := "github.com/XiBao/logger/zlogsentry"

/-- Module path constant of common.Stacktrace. -/
def loggerModule : String := "github.com/XiBao/logger"

/-- The zerolog module path, shared by both trimmers. -/
def zerologModule : String := "github.com/rs/zerolog"

/-- A captured stack frame (sentry.Frame restricted to the fields the spec's
data model names: module, function, file, line). -/
structure Frame where
  module : String
  function : String
  filename : String
  lineno : Int
deriving DecidableEq, Repr

/-- Zero frame, used only to give out-of-range reads a value; the loops of
the trimmer keep their indices in range. -/
def defaultFrame : Frame := { module := "", function := "", filename := "", lineno := 0 }

/-- Module of the frame at index i (frames are oldest-first). -/
def moduleAt (frames : List Frame) (i : Nat) : String :=
  (frames.getD i defaultFrame).module

/-- First loop of the trimmer: starting from the tail index, drop frames of
the bridge's own module while the index stays positive. -/
def dropSelfLoop (selfMod : String) (frames : List Frame) : Nat → Nat
  | 0 => 0
  | t + 1 =>
    if moduleAt frames (t + 1) = selfMod then dropSelfLoop selfMod frames t
    else t + 1

/-- Outer scan of the trimmer's second phase: walking the index down while it
stays positive, find the first (highest) frame of the zerolog module. -/
def findZerologLoop (frames : List Frame) : Nat → Option Nat
  | 0 => none
  | i + 1 =>
    if moduleAt frames (i + 1) = zerologModule then some (i + 1)
    else findZerologLoop frames i

/-- Inner scan of the trimmer's second phase: walking the index down to zero
inclusive, find the first frame not of the zerolog module. -/
def findNonZerologLoop (frames : List Frame) : Nat → Option Nat
  | 0 => if moduleAt frames 0 = zerologModule then none else some 0
  | j + 1 =>
    if moduleAt frames (j + 1) = zerologModule then findNonZerologLoop frames j
    else some (j + 1)

/-- The trimmer's final threshold index, mirroring newStacktrace and
common.Stacktrace: drop own-module frames from the tail, then (if a zerolog
frame is found below) move the threshold to the nearest frame below the
zerolog block; the threshold never goes below index zero. -/
def trimThreshold (selfMod : String) (frames : List Frame) : Nat :=
  match findZerologLoop frames (dropSelfLoop selfMod frames (frames.length - 1)) with
  | none => dropSelfLoop selfMod frames (frames.length - 1)
  | some i =>
    match findNonZerologLoop frames (i - 1) with
    | none => dropSelfLoop selfMod frames (frames.length - 1)
    | some j => j

/-- Truncation to the threshold (st.Frames = st.Frames[:threshold+1]); an
empty capture stays empty. -/
def trimFrames (selfMod : String) (frames : List Frame) : List Frame :=
  frames.take (trimThreshold selfMod frames + 1)

/-- A trimmed trace (sentry.Stacktrace's frame list). -/
structure Stacktrace where
  frames : List Frame
deriving DecidableEq, Repr

/-- newStacktrace of zlogsentry/writer.go, as a function of the raw captured
stack (sentry.NewStacktrace's capture, oldest call first). -/
def newStacktrace (captured : List Frame) : Stacktrace :=
  { frames := trimFrames zlogsentryModule captured }

/-- common.Stacktrace, as a function of the raw captured stack. -/
def commonStacktrace (captured : List Frame) : Stacktrace :=
  { frames := trimFrames loggerModule captured }

/-- Go values carried in hook event fields and Extra maps, restricted to the
shapes convertValue dispatches on.  Renderings Go delegates to fmt or the
floating-point formatter are carried as opaque strings. -/
inductive GoValue where
  | boolV (b : Bool)
  | bytesV (bs : List Nat)
  | float32V (formatted : String)
  | float64V (formatted : String)
  | uintV (n : Nat)
  | intV (n : Int)
  | uint64V (n : Nat)
  | int64V (n : Int)
  | strV (s : String)
  | structV (dump : String)
  | sliceV (elems : List GoValue)
  | mapV (pairs : List (String × GoValue))
  | ptrV (v : Option GoValue)
  | nilV
  | errV (msg : String)
  | otherV (typeName : String) (dump : String)

/-- One exception entry of a sentry event: value text plus optional trace. -/
structure SException where
  value : String
  stacktrace : Option Stacktrace
deriving DecidableEq, Repr

/-- The normalized report (sentry.Event restricted to the fields the bridge
writes; the wall-clock timestamp is not embedded). -/
structure SEvent where
  level : String := ""
  message : String := ""
  logger : String := ""
  exception : List SException := []
  extra : List (String × GoValue) := []
  contexts : List (String × List (String × String)) := []

/-- A breadcrumb as addBreadcrumb assembles it. -/
structure Breadcrumb where
  category : String
  message : String
  level : String
  data : List (String × GoValue)

/-- Observable calls into the sentry client. -/
inductive SentryCall where
  | captureEvent (e : SEvent)
  | addBreadcrumb (b : Breadcrumb)
  | flush (timeout : Int)

/-- Result of a sink call: reported byte count, reported error, and the
sentry calls made along the way. -/
structure WriteResult where
  n : Nat
  err : Option String
  calls : List SentryCall

/-- JSON type name as encoding/json names it in unmarshal type errors. -/
def jsonTypeName : JValue → String
  | .str _ => "string"
  | .num _ => "number"
  | .bool _ => "bool"
  | .null => "null"
  | .arr _ => "array"
  | .obj _ => "object"

/-- The ErrWithStackTrace struct of zlogsentry/writer.go. -/
structure ErrWithStackTraceM where
  stacktrace : Option Stacktrace
  err : String
deriving Repr

/-- Keep the first unmarshal error, as encoding/json's decoder does. -/
def firstErr (a : Option String) (b : Option String) : Option String :=
  match a with
  | some m => some m
  | none => b

/-- Unmarshal one sentry.Frame from JSON (the fields the Frame model
carries; unknown members are ignored, as encoding/json ignores them). -/
def unmarshalFrame (v : JValue) : Except String Frame :=
  match v with
  | .null => .ok defaultFrame
  | .obj fields =>
    let step := fun (acc : Frame × Option String) (kv : String × JValue) =>
      if kv.1 = "module" then
        match kv.2 with
        | .str s => ({ acc.1 with module := s }, acc.2)
        | .null => acc
        | w => (acc.1, firstErr acc.2 (some ("json: cannot unmarshal " ++ jsonTypeName w ++ " into Go struct field Frame.module of type string")))
      else if kv.1 = "function" then
        match kv.2 with
        | .str s => ({ acc.1 with function := s }, acc.2)
        | .null => acc
        | w => (acc.1, firstErr acc.2 (some ("json: cannot unmarshal " ++ jsonTypeName w ++ " into Go struct field Frame.function of type string")))
      else if kv.1 = "filename" then
        match kv.2 with
        | .str s => ({ acc.1 with filename := s }, acc.2)
        | .null => acc
        | w => (acc.1, firstErr acc.2 (some ("json: cannot unmarshal " ++ jsonTypeName w ++ " into Go struct field Frame.filename of type string")))
      else if kv.1 = "lineno" then
        match kv.2 with
        | .num raw =>
          match goAtoi raw with
          | some i => ({ acc.1 with lineno := i }, acc.2)
          | none => (acc.1, firstErr acc.2 (some ("json: cannot unmarshal number " ++ raw ++ " into Go struct field Frame.lineno of type int")))
        | .null => acc
        | w => (acc.1, firstErr acc.2 (some ("json: cannot unmarshal " ++ jsonTypeName w ++ " into Go struct field Frame.lineno of type int")))
      else acc
    let r := fields.foldl step (defaultFrame, none)
    match r.2 with
    | some m => .error m
    | none => .ok r.1
  | w => .error ("json: cannot unmarshal " ++ jsonTypeName w ++ " into Go struct field Stacktrace.frames of type sentry.Frame")

/-- Unmarshal a list of frames, keeping the first error. -/
def unmarshalFrameList : List JValue → Except String (List Frame)
  | [] => .ok []
  | v :: rest =>
    match unmarshalFrame v with
    | .error m => .error m
    | .ok f =>
      match unmarshalFrameList rest with
      | .error m => .error m
      | .ok fs => .ok (f :: fs)

/-- Unmarshal a sentry.Stacktrace value (an object with a frames array). -/
def unmarshalStacktrace (v : JValue) : Except String Stacktrace :=
  match v with
  | .obj fields =>
    match jsonGet fields "frames" with
    | some (.arr es) =>
      match unmarshalFrameList es with
      | .error m => .error m
      | .ok fs => .ok { frames := fs }
    | some .null => .ok { frames := [] }
    | some w => .error ("json: cannot unmarshal " ++ jsonTypeName w ++ " into Go struct field ErrWithStackTrace.stacktrace.frames of type []sentry.Frame")
    | none => .ok { frames := [] }
  | w => .error ("json: cannot unmarshal " ++ jsonTypeName w ++ " into Go struct field ErrWithStackTrace.stacktrace of type sentry.Stacktrace")

/-- json.Unmarshal of a value into ErrWithStackTrace: succeeds only for an
object (or null, which leaves the zero value); any scalar or array fails with
the encoding/json type-error message. -/
def unmarshalErrWithStack (v : JValue) : Except String ErrWithStackTraceM :=
  match v with
  | .null => .ok { stacktrace := none, err := "" }
  | .obj fields =>
    let step := fun (acc : ErrWithStackTraceM × Option String) (kv : String × JValue) =>
      if kv.1 = "error" then
        match kv.2 with
        | .str s => ({ acc.1 with err := s }, acc.2)
        | .null => acc
        | w => (acc.1, firstErr acc.2 (some ("json: cannot unmarshal " ++ jsonTypeName w ++ " into Go struct field ErrWithStackTrace.error of type string")))
      else if kv.1 = "stacktrace" then
        match kv.2 with
        | .null => ({ acc.1 with stacktrace := none }, acc.2)
        | w =>
          match unmarshalStacktrace w with
          | .ok st => ({ acc.1 with stacktrace := some st }, acc.2)
          | .error m => (acc.1, firstErr acc.2 (some m))
      else acc
    let r := fields.foldl step ({ stacktrace := none, err := "" }, none)
    match r.2 with
    | some m => .error m
    | none => .ok r.1
  | w => .error ("json: cannot unmarshal " ++ jsonTypeName w ++ " into Go value of type zlogsentry.ErrWithStackTrace")

/-- Map-write into an assoc list: replace the value of an existing key,
otherwise append (Go map insertion; iteration order of the model is the
insertion order). -/
def mapInsert (m : List (String × String)) (k v : String) : List (String × String) :=
  if m.any (fun kv => kv.1 = k) then
    m.map (fun kv => if kv.1 = k then (k, v) else kv)
  else m ++ [(k, v)]

/-- Map-write for Extra maps holding Go values. -/
def extraInsert (m : List (String × GoValue)) (k : String) (v : GoValue) : List (String × GoValue) :=
  if m.any (fun kv => kv.1 = k) then
    m.map (fun kv => if kv.1 = k then (k, v) else kv)
  else m ++ [(k, v)]

/-- Loop state of the first-generation parseLogEvent's ForEach body. -/
structure ParseV1State where
  message : String := ""
  level : String := ""
  exception : List SException := []
  isStack : Bool := false
  errExept : List SException := []
  payload : List (String × String) := []

/-- One iteration of the first-generation parseLogEvent: message and error
fields are recognized, the error-stack field is unmarshalled (a failure
synthesizes an exception from the unmarshal error and rewrites the message),
every other key lands in the payload context. -/
def parseV1Step (captured : List Frame) (st : ParseV1State) (kv : String × JValue) : ParseV1State :=
  if kv.1 = messageFieldName then { st with message := jstr kv.2 }
  else if kv.1 = errorFieldName then
    { st with errExept := st.errExept ++ [{ value := jstr kv.2, stacktrace := some (newStacktrace captured) }] }
  else if kv.1 = errorStackFieldName then
    match unmarshalErrWithStack kv.2 with
    | .error m =>
      { st with
        level := "error"
        exception := st.exception ++ [{ value := m, stacktrace := none }]
        message := "Error unmarshal: " ++ jstr kv.2 }
    | .ok e =>
      { st with
        exception := st.exception ++ [{ value := e.err, stacktrace := e.stacktrace }]
        isStack := true }
  else { st with payload := mapInsert st.payload kv.1 (jstr kv.2) }

/-- Event assembled by the first-generation parseLogEvent: plain error
entries are installed only when no embedded stack entry was accepted, and a
non-empty payload becomes the payload context. -/
def parseEventV1 (captured : List Frame) (d : RecordBytes) : SEvent :=
  let st := d.fields.foldl (parseV1Step captured) {}
  { level := st.level
    message := st.message
    logger := "zerolog"
    exception := if st.isStack = false ∧ st.errExept ≠ [] then st.errExept else st.exception
    extra := []
    contexts := if st.payload ≠ [] then [("payload", st.payload)] else [] }

/-- First-generation parseLogEvent (zlogsentry/writer.go, breadcrumb
writer): always returns its event with ok = true. -/
def parseLogEventV1 (captured : List Frame) (d : RecordBytes) : SEvent × Bool :=
  (parseEventV1 captured d, true)

/-- parseLogLevel: read the level field and hand it to zerolog.ParseLevel. -/
def parseLogLevel (d : RecordBytes) : Int × Option String :=
  goParseLevel (gjsonGetString d levelFieldName)

/-- First-generation Writer: configured enabled levels and breadcrumb flag. -/
structure WriterV1 where
  levels : List Int
  withBreadcrumbs : Bool

/-- Lookup in an Extra map modelled as an assoc list. -/
def extraGet (extra : List (String × GoValue)) (key : String) : Option GoValue :=
  (extra.find? (fun kv => kv.1 = key)).map (fun kv => kv.2)

/-- Category lookup of addBreadcrumb: the Extra entry named category, when
it is a string. -/
def breadcrumbCategory (extra : List (String × GoValue)) : String :=
  match extraGet extra "category" with
  | some (.strV s) => s
  | _ => ""

/-- addBreadcrumb: emits nothing unless breadcrumbs are enabled. -/
def addBreadcrumbCalls (w : WriterV1) (e : SEvent) : List SentryCall :=
  if w.withBreadcrumbs then
    [.addBreadcrumb { category := breadcrumbCategory e.extra, message := e.message, level := e.level, data := e.extra }]
  else []

/-- First-generation Writer.Write: parse the level (returning success on a
parse error), parse the event, then either capture it or degrade it to a
breadcrumb depending on the enabled set. -/
def writeV1 (w : WriterV1) (captured : List Frame) (d : RecordBytes) : WriteResult :=
  let n := d.len
  match parseLogLevel d with
  | (_, some _) => { n := n, err := none, calls := [] }
  | (lvl, none) =>
    match parseLogEventV1 captured d with
    | (_, false) => { n := n, err := none, calls := [] }
    | (event, true) =>
      if w.levels.contains lvl then
        { n := n, err := none, calls := [.captureEvent event] }
      else
        { n := n, err := none, calls := addBreadcrumbCalls w event }

/-- First-generation Writer.WriteLevel: parse the event, map the level
through the table (dropping the record when no mapping exists), then capture
or degrade to a breadcrumb. -/
def writeLevelV1 (w : WriterV1) (captured : List Frame) (level : Int) (d : RecordBytes) : WriteResult :=
  let n := d.len
  match parseLogEventV1 captured d with
  | (_, false) => { n := n, err := none, calls := [] }
  | (event, true) =>
    match levelsMapping level with
    | none => { n := n, err := none, calls := [] }
    | some sl =>
      let event := { event with level := sl }
      if w.levels.contains level then
        { n := n, err := none, calls := [.captureEvent event] }
      else
        { n := n, err := none, calls := addBreadcrumbCalls w event }

/-- Second-generation Writer (the hub/flush variant): enabled levels and the
configured flush timeout (a duration in nanoseconds). -/
structure WriterV2 where
  levels : List Int
  flushTimeout : Int

/-- One iteration of the second-generation parseLogEvent's ForEach body:
message and error fields are recognized, level and timestamp fields are
skipped, every other key lands in Extra as its rendered string. -/
def parseV2Step (captured : List Frame) (ev : SEvent) (kv : String × JValue) : SEvent :=
  if kv.1 = messageFieldName then { ev with message := jstr kv.2 }
  else if kv.1 = errorFieldName then
    { ev with exception := ev.exception ++ [{ value := jstr kv.2, stacktrace := some (newStacktrace captured) }] }
  else if kv.1 = levelFieldName ∨ kv.1 = timestampFieldName then ev
  else { ev with extra := extraInsert ev.extra kv.1 (.strV (jstr kv.2)) }

/-- Second-generation parseLogEvent: read and parse the level field first
(failing on a parse error), drop the record when its level is not enabled or
has no mapping, then walk the body. -/
def parseLogEventV2 (w : WriterV2) (captured : List Frame) (d : RecordBytes) : Option SEvent :=
  match goParseLevel (gjsonGetString d levelFieldName) with
  | (_, some _) => none
  | (lvl, none) =>
    if w.levels.contains lvl = false then none
    else
      match levelsMapping lvl with
      | none => none
      | some sl =>
        some (d.fields.foldl (parseV2Step captured) { level := sl, logger := "zerolog" })

/-- Second-generation Writer.Write: capture the parsed event and flush
(bounded by the configured timeout) when the mapped severity is fatal;
always report full success. -/
def writeV2 (w : WriterV2) (captured : List Frame) (d : RecordBytes) : WriteResult :=
  match parseLogEventV2 w captured d with
  | none => { n := d.len, err := none, calls := [] }
  | some event =>
    { n := d.len
      err := none
      calls := [.captureEvent event] ++ (if event.level = "fatal" then [.flush w.flushTimeout] else []) }

/-- Decode one UTF-8 sequence at the head of a byte list the way Go's
utf8.DecodeRune does: returns the decoded scalar value and the bytes
consumed, or none (one byte consumed) for an invalid sequence. -/
def utf8Decode1 : List Nat → Option (Nat × Nat)
  | [] => none
  | b0 :: rest =>
    if b0 < 128 then some (b0, 1)
    else if 194 ≤ b0 ∧ b0 ≤ 223 then
      match rest with
      | b1 :: _ =>
        if 128 ≤ b1 ∧ b1 ≤ 191 then some ((b0 - 192) * 64 + (b1 - 128), 2) else none
      | _ => none
    else if 224 ≤ b0 ∧ b0 ≤ 239 then
      match rest with
      | b1 :: b2 :: _ =>
        let lo1 := if b0 = 224 then 160 else 128
        let hi1 := if b0 = 237 then 159 else 191
        if lo1 ≤ b1 ∧ b1 ≤ hi1 ∧ 128 ≤ b2 ∧ b2 ≤ 191 then
          some ((b0 - 224) * 4096 + (b1 - 128) * 64 + (b2 - 128), 3)
        else none
      | _ => none
    else if 240 ≤ b0 ∧ b0 ≤ 244 then
      match rest with
      | b1 :: b2 :: b3 :: _ =>
        let lo1 := if b0 = 240 then 144 else 128
        let hi1 := if b0 = 244 then 143 else 191
        if lo1 ≤ b1 ∧ b1 ≤ hi1 ∧ 128 ≤ b2 ∧ b2 ≤ 191 ∧ 128 ≤ b3 ∧ b3 ≤ 191 then
          some ((b0 - 240) * 262144 + (b1 - 128) * 4096 + (b2 - 128) * 64 + (b3 - 128), 4)
        else none
      | _ => none
    else none

/-- Decoding loop of ToValidUTF8: keep valid runes, drop each invalid byte. -/
def toValidUTF8Chars : List Nat → List Char
  | [] => []
  | b :: rest =>
    match utf8Decode1 (b :: rest) with
    | some (cp, k) => Char.ofNat cp :: toValidUTF8Chars (List.drop (k - 1) rest)
    | none => toValidUTF8Chars rest
termination_by bs => bs.length
decreasing_by
  all_goals simp [List.length_drop]
  omega

/-- strings.ToValidUTF8(string(bytes), ""): decode the byte list, keeping
valid runes and dropping each invalid byte. -/
def toValidUTF8 (bs : List Nat) : String :=
  String.mk (toValidUTF8Chars bs)

/-- strconv.Itoa(int(v)) for a Go uint: the value is reinterpreted through
the two's-complement int64 conversion before formatting. -/
def uintItoa (n : Nat) : String :=
  let m : Nat := n % 2 ^ 64
  if m < 2 ^ 63 then toString m else toString ((m : Int) - 2 ^ 64)

/-- Go's message for calling reflect.Value.Interface on the zero Value,
which is what convertValue provokes on a nil typed pointer. -/
def reflectZeroValueMsg : String := "reflect: call of reflect.Value.Interface on zero Value"

/-- Render an assoc list of strings as encoding/json renders a
map[string]string: later duplicate keys overwrite, keys sorted. -/
def jsonMarshalStringMap (pairs : List (String × String)) : String :=
  let collapsed := pairs.foldl (fun acc kv => mapInsert acc kv.1 kv.2) []
  let sorted := collapsed.mergeSort (fun a b => a.1 ≤ b.1)
  "\x7b" ++ String.intercalate "," (sorted.map (fun kv => jsonQuote kv.1 ++ ":" ++ jsonQuote kv.2)) ++ "\x7d"

/-- Render a list of strings as encoding/json renders a []string. -/
def jsonMarshalStringArray (items : List String) : String :=
  "[" ++ String.intercalate "," (items.map jsonQuote) ++ "]"

mutual

/-- The hook's convertValue (hook/sentry/convertion.go): a deterministic
recursive stringifier.  A typed nil pointer makes the Go code call
reflect.Value.Interface on the zero Value, which breaks out of the function;
that outcome is the error branch of the Except result. -/
def convertValue : GoValue → Except String String
  | .boolV true => .ok "true"
  | .boolV false => .ok "false"
  | .bytesV bs => .ok (toValidUTF8 bs)
  | .float32V formatted => .ok formatted
  | .float64V formatted => .ok formatted
  | .uintV n => .ok (uintItoa n)
  | .intV n => .ok (toString n)
  | .uint64V n => .ok (toString n)
  | .int64V n => .ok (toString n)
  | .strV s => .ok s
  | .structV dump => .ok dump
  | .sliceV es =>
    match convertValueList es with
    | .error m => .error m
    | .ok items => .ok (jsonMarshalStringArray items)
  | .mapV ps =>
    match convertValuePairs ps with
    | .error m => .error m
    | .ok kvs => .ok (jsonMarshalStringMap kvs)
  | .ptrV none => .error reflectZeroValueMsg
  | .ptrV (some v) => convertValue v
  | .nilV => .ok ""
  | .errV m => .ok ("\x7bs:" ++ m ++ "\x7d")
  | .otherV typeName dump => .ok ("unhandled attribute type: (" ++ typeName ++ ") " ++ dump)

/-- Element-wise conversion of a slice's values. -/
def convertValueList : List GoValue → Except String (List String)
  | [] => .ok []
  | v :: rest =>
    match convertValue v with
    | .error m => .error m
    | .ok s =>
      match convertValueList rest with
      | .error m => .error m
      | .ok ss => .ok (s :: ss)

/-- Element-wise conversion of a map's values (keys already stringified). -/
def convertValuePairs : List (String × GoValue) → Except String (List (String × String))
  | [] => .ok []
  | kv :: rest =>
    match convertValue kv.2 with
    | .error m => .error m
    | .ok s =>
      match convertValuePairs rest with
      | .error m => .error m
      | .ok ss => .ok ((kv.1, s) :: ss)

end

/-- errors.Join of the accumulated error with a new one (message view). -/
def joinErr (a : Option String) (m : String) : Option String :=
  match a with
  | none => some m
  | some x => some (x ++ "\n" ++ m)

/-- One field of the hook's convertEvent: an error value under the error key
feeds SetException (value text, no extractable trace for plain errors) and
the joined return error; any other value under the error key is stringified
and paired with a freshly trimmed trace; other keys land in Extra.  The
stringifier's break-out (nil typed pointer) escapes the whole conversion. -/
def asError : GoValue → Option String
  | .errV m => some m
  | _ => none

/-- One field of the hook's convertEvent, continued: dispatch on the error
key, with asError modelling the Go type assertion to the error interface. -/
def convertEventStep (captured : List Frame) (acc : SEvent × Option String) (kv : String × GoValue) : Except String (SEvent × Option String) :=
  if kv.1 = errorFieldName then
    match asError kv.2 with
    | some m =>
      .ok ({ acc.1 with exception := acc.1.exception ++ [{ value := m, stacktrace := none }] }, joinErr acc.2 m)
    | none =>
      match convertValue kv.2 with
      | .error m => .error m
      | .ok s =>
        .ok ({ acc.1 with exception := acc.1.exception ++ [{ value := s, stacktrace := some (commonStacktrace captured) }] }, acc.2)
  else .ok ({ acc.1 with extra := acc.1.extra ++ [(kv.1, kv.2)] }, acc.2)

/-- Fold of convertEvent over the event's fields. -/
def convertEventFold (captured : List Frame) : List (String × GoValue) → (SEvent × Option String) → Except String (SEvent × Option String)
  | [], acc => .ok acc
  | kv :: rest, acc =>
    match convertEventStep captured acc kv with
    | .error m => .error m
    | .ok acc2 => convertEventFold captured rest acc2

/-- The hook's convertEvent (hook/sentry/convertion.go): severity is the
zerolog level's own name coerced to a sentry level, the message is passed
through, and the extracted fields are walked.  The field map comes from
convertFields (a reflection-and-unmarshal extraction of the zerolog event
buffer), which this model takes as the already-extracted assoc list;
Go's map iteration order is unspecified, the model walks insertion order. -/
def convertEvent (fields : List (String × GoValue)) (level : Int) (message : String) (captured : List Frame) : Except String (SEvent × Option String) :=
  convertEventFold captured fields ({ level := zlevelString level, message := message, extra := [] }, none)

/-- The hook's flush timeout: 2 seconds in nanoseconds. -/
def hookFlushTimeout : Int := 2000000000

/-- Hook.Run (hook/sentry/hook.go): convert and capture only error-level
events, flush (bounded) on fatal or panic levels. -/
def hookRun (fields : List (String × GoValue)) (level : Int) (message : String) (captured : List Frame) : Except String (List SentryCall) :=
  match (if level = zErrorLevel then
           match convertEvent fields level message captured with
           | .error m => Except.error m
           | .ok (ev, _) => Except.ok [SentryCall.captureEvent ev]
         else Except.ok []) with
  | .error m => .error m
  | .ok first =>
    .ok (first ++ (if level = zFatalLevel ∨ level = zPanicLevel then [SentryCall.flush hookFlushTimeout] else []))

/-- The default enabled-level set of both writers' configurations: error,
fatal, panic. -/
def defaultLevels : List Int := [zErrorLevel, zFatalLevel, zPanicLevel]

/-- Sample shape-(a) record of the basic parser property. -/
def recBasic : RecordBytes :=
  { len := 48, fields := [("level", .str "error"), ("message", .str "boom"), ("error", .str "bad thing")] }

/-- Claim C2: both generations of Write and WriteLevel report the full input
length and no error for every input and every source level, whatever the
internal parse, mapping and dispatch outcomes are. -/
theorem sinks_report_full_success (w1 : WriterV1) (w2 : WriterV2)
    (captured : List Frame) (level : Int) (d : RecordBytes) :
    (writeV1 w1 captured d).n = d.len ∧ (writeV1 w1 captured d).err = none ∧
    (writeLevelV1 w1 captured level d).n = d.len ∧ (writeLevelV1 w1 captured level d).err = none ∧
    (writeV2 w2 captured d).n = d.len ∧ (writeV2 w2 captured d).err = none := by
  refine ⟨?_, ?_, ?_, ?_, ?_, ?_⟩ <;>
    · simp only [writeV1, writeLevelV1, writeV2]
      repeat' split
      all_goals rfl

/-- Claim C9 (failing input): the value-to-string converter reaches
reflect.Value.Interface on the zero Value for a typed nil pointer, instead
of returning the empty string the spec promises for null pointed-to
values. -/
theorem convertValue_nil_pointer_break :
    convertValue (GoValue.ptrV none) = Except.error reflectZeroValueMsg := rfl

/-- Claim C5: the mapping table sends each of the six defined source levels
to its fixed target severity, returns no mapping for every other source
level, and a record whose source level has no mapping is dropped by
WriteLevel with no sentry call and no error while the full length is still
reported. -/
theorem levels_mapping_table_spec :
    levelsMapping zDebugLevel = some "debug" ∧
    levelsMapping zInfoLevel = some "info" ∧
    levelsMapping zWarnLevel = some "warning" ∧
    levelsMapping zErrorLevel = some "error" ∧
    levelsMapping zFatalLevel = some "fatal" ∧
    levelsMapping zPanicLevel = some "fatal" ∧
    (∀ l : Int,
      l ∉ ([zDebugLevel, zInfoLevel, zWarnLevel, zErrorLevel, zFatalLevel, zPanicLevel] : List Int) →
      levelsMapping l = none) ∧
    (∀ (w : WriterV1) (captured : List Frame) (l : Int) (d : RecordBytes),
      levelsMapping l = none →
      writeLevelV1 w captured l d = { n := d.len, err := none, calls := [] }) := by
  refine ⟨rfl, rfl, rfl, rfl, rfl, rfl, ?_, ?_⟩
  · intro l hl
    simp only [List.mem_cons, List.not_mem_nil, or_false, not_or] at hl
    obtain ⟨h0, h1, h2, h3, h4, h5⟩ := hl
    simp only [levelsMapping, if_neg h0, if_neg h1, if_neg h2, if_neg h3, if_neg h4, if_neg h5]
  · intro w captured l d h
    simp only [writeLevelV1, parseLogEventV1, h]

/-- Witness for the C5 theorem at the trace level and a concrete record. -/
theorem levels_mapping_table_spec_witness :
    levelsMapping zTraceLevel = none ∧
    writeLevelV1 { levels := defaultLevels, withBreadcrumbs := false } [] zTraceLevel recBasic
      = { n := recBasic.len, err := none, calls := [] } := by
  constructor
  · exact levels_mapping_table_spec.2.2.2.2.2.2.1 zTraceLevel (by decide)
  · exact levels_mapping_table_spec.2.2.2.2.2.2.2
      { levels := defaultLevels, withBreadcrumbs := false } [] zTraceLevel recBasic (by decide)

/-- Claim C4: parsing the record with level error, message boom and error
bad thing succeeds in both parser generations, yielding message boom and a
single exception entry valued bad thing carrying the freshly captured and
trimmed trace. -/
theorem parse_shape_a_basic (captured : List Frame) (ft : Int) :
    parseLogEventV1 captured recBasic =
      ({ level := "", message := "boom", logger := "zerolog",
         exception := [{ value := "bad thing", stacktrace := some (newStacktrace captured) }],
         extra := [], contexts := [("payload", [("level", "error")])] }, true) ∧
    parseLogEventV2 { levels := defaultLevels, flushTimeout := ft } captured recBasic =
      some { level := "error", message := "boom", logger := "zerolog",
             exception := [{ value := "bad thing", stacktrace := some (newStacktrace captured) }],
             extra := [], contexts := [] } := by
  exact ⟨rfl, rfl⟩

/-- Record with the literal key error.stack, as the claim spells the
error-with-trace field. -/
def recDotStack : RecordBytes :=
  { len := 40, fields := [("level", .str "error"), ("error.stack", .str "not-json")] }

/-- Record with the designated error-with-trace key (zerolog's
ErrorStackFieldName, which is stack) holding a malformed value. -/
def recStackLit : RecordBytes :=
  { len := 34, fields := [("level", .str "error"), ("stack", .str "not-json")] }

/-- The encoding/json message for unmarshalling a JSON string into the
ErrWithStackTrace struct. -/
def jsonStrIntoStructMsg : String :=
  "json: cannot unmarshal string into Go value of type zlogsentry.ErrWithStackTrace"

/-- Claim C6 (counterexample): under the key error.stack the parser
recognizes nothing; the record parses with no exception entry at all and an
empty message, because the designated error-with-trace key is stack. -/
theorem parse_error_dot_stack_key_unrecognized :
    (parseLogEventV1 [] recDotStack).2 = true ∧
    (parseLogEventV1 [] recDotStack).1.exception = [] ∧
    (parseLogEventV1 [] recDotStack).1.message = "" ∧
    (parseLogEventV1 [] recDotStack).1.contexts =
      [("payload", [("level", "error"), ("error.stack", "not-json")])] := by
  exact ⟨rfl, rfl, rfl, rfl⟩

/-- Claim C6 (amended): with the designated error-with-trace key stack
holding the malformed value not-json, parsing succeeds and yields a
synthesized exception entry valued with the unmarshal error's own message
and a report message naming the offending value. -/
theorem parse_malformed_embedded_trace (captured : List Frame) :
    parseLogEventV1 captured recStackLit =
      ({ level := "error", message := "Error unmarshal: not-json", logger := "zerolog",
         exception := [{ value := jsonStrIntoStructMsg, stacktrace := none }],
         extra := [], contexts := [("payload", [("level", "error")])] }, true) := by
  exact rfl

/-- Record with no level field at all. -/
def recNoLevel : RecordBytes := { len := 16, fields := [("message", .str "hi")] }

/-- Claim C7 (counterexample): a record with an absent level field does not
fail level parsing (the empty level string parses as NoLevel with no error),
and with breadcrumb mode enabled the first-generation Write records it as a
breadcrumb. -/
theorem absent_level_parses_without_error :
    parseLogLevel recNoLevel = (zNoLevel, none) ∧
    (writeV1 { levels := defaultLevels, withBreadcrumbs := true } [] recNoLevel).calls =
      [.addBreadcrumb { category := "", message := "hi", level := "", data := [] }] := by
  exact ⟨rfl, rfl⟩

/-- Claim C7 (amended): whenever the level field's value fails to parse,
both sink generations silently discard the record: no sentry call is made,
and the sink still reports the full length with no error. -/
theorem unparseable_level_discarded (w1 : WriterV1) (w2 : WriterV2)
    (captured : List Frame) (d : RecordBytes)
    (h : (parseLogLevel d).2 ≠ none) :
    writeV1 w1 captured d = { n := d.len, err := none, calls := [] } ∧
    writeV2 w2 captured d = { n := d.len, err := none, calls := [] } := by
  rcases hp : parseLogLevel d with ⟨lvl, err⟩
  rcases err with _ | m
  · rw [hp] at h; exact absurd rfl h
  · have hp2 : goParseLevel (gjsonGetString d levelFieldName) = (lvl, some m) := hp
    constructor
    · simp only [writeV1, hp]
    · simp only [writeV2, parseLogEventV2, hp2]

/-- Record whose level field holds an unparseable name. -/
def recVerbose : RecordBytes := { len := 20, fields := [("level", .str "verbose")] }

/-- Witness for the amended C7 theorem at a concrete unparseable level. -/
theorem unparseable_level_discarded_witness :
    writeV1 { levels := defaultLevels, withBreadcrumbs := true } [] recVerbose
      = { n := recVerbose.len, err := none, calls := [] } ∧
    writeV2 { levels := defaultLevels, flushTimeout := 3000000000 } [] recVerbose
      = { n := recVerbose.len, err := none, calls := [] } := by
  exact unparseable_level_discarded
    { levels := defaultLevels, withBreadcrumbs := true }
    { levels := defaultLevels, flushTimeout := 3000000000 }
    [] recVerbose (by decide)

/-- A well-formed embedded error-with-trace object. -/
def stackObjGood : JValue :=
  .obj [("error", .str "inner"), ("stacktrace", .obj [("frames", .arr [])])]

/-- Record carrying both a plain error field and a valid embedded
error-with-trace field. -/
def recBothErrors : RecordBytes :=
  { len := 60, fields := [("level", .str "error"), ("error", .str "bad"), ("stack", stackObjGood)] }

/-- Claim C10 (counterexample): the record has two error-typed field
occurrences, yet the parsed exceptions hold a single entry — the accepted
embedded entry causes the plain-error entries to be discarded. -/
theorem exceptions_drop_plain_when_stack_accepted :
    recBothErrors.fields.countP
      (fun kv => kv.1 == errorFieldName || kv.1 == errorStackFieldName) = 2 ∧
    (parseLogEventV1 [] recBothErrors).1.exception =
      [{ value := "inner", stacktrace := some { frames := [] } }] := by
  exact ⟨rfl, rfl⟩

/-- Shared fold invariant: over fields containing no error-stack key, the
first-generation parse loop leaves isStack and the embedded-exception list
untouched and appends one plain entry per error-field occurrence, in
occurrence order. -/
theorem parseV1_fold_no_stack (captured : List Frame) :
    ∀ (fields : List (String × JValue)) (st : ParseV1State),
      (∀ kv ∈ fields, kv.1 ≠ errorStackFieldName) →
      (fields.foldl (parseV1Step captured) st).isStack = st.isStack ∧
      (fields.foldl (parseV1Step captured) st).exception = st.exception ∧
      (fields.foldl (parseV1Step captured) st).errExept = st.errExept ++
        fields.filterMap (fun kv =>
          if kv.1 = errorFieldName then
            some { value := jstr kv.2, stacktrace := some (newStacktrace captured) }
          else none) := by
  intro fields
  induction fields with
  | nil => intro st _; simp
  | cons kv rest ih =>
    intro st h
    have hkv : kv.1 ≠ errorStackFieldName := h kv (List.mem_cons_self kv rest)
    have hrest : ∀ kv2 ∈ rest, kv2.1 ≠ errorStackFieldName :=
      fun kv2 hm => h kv2 (List.mem_cons_of_mem kv hm)
    simp only [List.foldl_cons, List.filterMap_cons]
    by_cases hmsg : kv.1 = messageFieldName
    · have hstep : parseV1Step captured st kv = { st with message := jstr kv.2 } := by
        simp only [parseV1Step, if_pos hmsg]
      have hkey : kv.1 ≠ errorFieldName := by rw [hmsg]; decide
      rw [hstep, if_neg hkey]
      exact ih { st with message := jstr kv.2 } hrest
    · by_cases herr : kv.1 = errorFieldName
      · have hstep : parseV1Step captured st kv =
            { st with errExept := st.errExept ++
                [{ value := jstr kv.2, stacktrace := some (newStacktrace captured) }] } := by
          simp only [parseV1Step, if_neg hmsg, if_pos herr]
        rw [hstep, if_pos herr]
        obtain ⟨h1, h2, h3⟩ := ih
          { st with errExept := st.errExept ++
              [{ value := jstr kv.2, stacktrace := some (newStacktrace captured) }] } hrest
        refine ⟨h1, h2, ?_⟩
        rw [h3]; simp
      · have hstep : parseV1Step captured st kv =
            { st with payload := mapInsert st.payload kv.1 (jstr kv.2) } := by
          simp only [parseV1Step, if_neg hmsg, if_neg herr, if_neg hkv]
        rw [hstep, if_neg herr]
        exact ih { st with payload := mapInsert st.payload kv.1 (jstr kv.2) } hrest

/-- Claim C10 (amended): for records with no embedded error-with-trace
field, the parsed exceptions are exactly one plain entry per error-field
occurrence in occurrence order, and empty when no error field occurs. -/
theorem plain_error_exceptions_in_order (captured : List Frame) (d : RecordBytes)
    (h : ∀ kv ∈ d.fields, kv.1 ≠ errorStackFieldName) :
    (parseLogEventV1 captured d).1.exception =
      d.fields.filterMap (fun kv =>
        if kv.1 = errorFieldName then
          some { value := jstr kv.2, stacktrace := some (newStacktrace captured) }
        else none) := by
  obtain ⟨h1, h2, h3⟩ := parseV1_fold_no_stack captured d.fields {} h
  simp only [parseLogEventV1, parseEventV1]
  rw [h1, h2, h3]
  simp only [List.nil_append]
  by_cases hne : d.fields.filterMap (fun kv =>
      if kv.1 = errorFieldName then
        some ({ value := jstr kv.2, stacktrace := some (newStacktrace captured) } : SException)
      else none) = []
  · simp [hne]
  · simp [hne]

/-- Record with two plain error occurrences and an unrelated key. -/
def recTwoErrors : RecordBytes :=
  { len := 30, fields := [("error", .str "a"), ("k", .str "v"), ("error", .str "b")] }

/-- Witness for the amended C10 theorem: two plain error occurrences give
two entries in order. -/
theorem plain_error_exceptions_in_order_witness :
    (parseLogEventV1 [] recTwoErrors).1.exception =
      recTwoErrors.fields.filterMap (fun kv =>
        if kv.1 = errorFieldName then
          some { value := jstr kv.2, stacktrace := some (newStacktrace []) }
        else none) := by
  exact plain_error_exceptions_in_order [] recTwoErrors (by decide)

/-- Claim C8 (counterexample): the hook's conversion stringifies the source
level itself, so at warn level it produces severity warn while the mapping
table's target severity is warning. -/
theorem hook_severity_differs_at_warn :
    convertEvent [] zWarnLevel "m" [] =
      .ok ({ level := "warn", message := "m", logger := "",
             exception := [], extra := [], contexts := [] }, none) ∧
    levelsMapping zWarnLevel = some "warning" ∧
    ("warn" : String) ≠ "warning" := by
  refine ⟨rfl, rfl, by decide⟩

/-- Shared fold invariant: the hook's field walk never changes the severity
it started from. -/
theorem convertEventFold_level (captured : List Frame) :
    ∀ (fields : List (String × GoValue)) (acc res : SEvent × Option String),
      convertEventFold captured fields acc = .ok res → res.1.level = acc.1.level := by
  intro fields
  induction fields with
  | nil =>
    intro acc res h
    simp only [convertEventFold] at h
    cases h; rfl
  | cons kv rest ih =>
    intro acc res h
    simp only [convertEventFold] at h
    rcases hstep : convertEventStep captured acc kv with m | acc2
    · rw [hstep] at h; cases h
    · rw [hstep] at h
      have hlvl : acc2.1.level = acc.1.level := by
        simp only [convertEventStep] at hstep
        by_cases hk : kv.1 = errorFieldName
        · rw [if_pos hk] at hstep
          rcases he : asError kv.2 with _ | m
          · rw [he] at hstep
            rcases hcv : convertValue kv.2 with m | s2 <;> rw [hcv] at hstep
            · cases hstep
            · cases hstep; rfl
          · rw [he] at hstep
            cases hstep; rfl
        · rw [if_neg hk] at hstep
          cases hstep; rfl
      rw [ih acc2 res h, hlvl]

/-- Claim C8 (amended): every report actually forwarded by the bridge
carries the table's target severity for its source level — WriteLevel
installs the table lookup itself, and the hook only ever captures
error-level events, whose stringified level coincides with the table's
target. -/
theorem forwarded_severity_matches_table
    (w : WriterV1) (captured : List Frame) (l : Int) (d : RecordBytes) (e : SEvent)
    (fields : List (String × GoValue)) (msg : String) (calls : List SentryCall) :
    (SentryCall.captureEvent e ∈ (writeLevelV1 w captured l d).calls →
      levelsMapping l = some e.level) ∧
    (hookRun fields l msg captured = .ok calls →
      SentryCall.captureEvent e ∈ calls →
      levelsMapping l = some e.level) := by
  constructor
  · intro hmem
    simp only [writeLevelV1, parseLogEventV1] at hmem
    rcases hml : levelsMapping l with _ | sl
    · rw [hml] at hmem; simp at hmem
    · rw [hml] at hmem
      by_cases hc : w.levels.contains l = true
      · simp only [hc, if_true, List.mem_singleton] at hmem
        injection hmem with he
        subst he
        rfl
      · simp only [hc, if_false, Bool.false_eq_true, addBreadcrumbCalls] at hmem
        by_cases hb : w.withBreadcrumbs = true
        · simp [hb] at hmem
        · simp [hb] at hmem
  · intro hok hmem
    simp only [hookRun] at hok
    by_cases hl : l = zErrorLevel
    · subst hl
      rw [if_pos rfl] at hok
      rcases hcv : convertEvent fields zErrorLevel msg captured with m | pr
      · rw [hcv] at hok
        exact absurd hok (by simp)
      · rcases pr with ⟨ev, retErr⟩
        rw [hcv] at hok
        injection hok with h1
        rw [if_neg (by decide : ¬(zErrorLevel = zFatalLevel ∨ zErrorLevel = zPanicLevel)),
          List.append_nil] at h1
        subst h1
        simp only [List.mem_singleton] at hmem
        injection hmem with he
        have hlvl : ev.level = zlevelString zErrorLevel :=
          convertEventFold_level captured fields
            ({ level := zlevelString zErrorLevel, message := msg, extra := [] }, none) (ev, retErr) hcv
        rw [he, hlvl]
        rfl
    · rw [if_neg hl] at hok
      injection hok with h1
      rw [List.nil_append] at h1
      subst h1
      by_cases hf : l = zFatalLevel ∨ l = zPanicLevel
      · simp [hf] at hmem
      · simp [hf] at hmem

/-- Witness for the amended C8 theorem: the concrete error-level hook run
captures one event whose severity agrees with the table. -/
theorem forwarded_severity_matches_table_witness :
    levelsMapping zErrorLevel =
      some ({ level := "error", message := "m", logger := "",
              exception := [], extra := [], contexts := [] } : SEvent).level := by
  exact (forwarded_severity_matches_table
    { levels := defaultLevels, withBreadcrumbs := false } [] zErrorLevel recBasic
    { level := "error", message := "m", logger := "", exception := [], extra := [], contexts := [] }
    [] "m"
    [SentryCall.captureEvent
      { level := "error", message := "m", logger := "", exception := [], extra := [], contexts := [] }]).2
    rfl (List.mem_singleton_self _)

/-- Shared fold invariant: the second-generation body walk never changes the
severity installed from the mapping table. -/
theorem parseV2_fold_level (captured : List Frame) :
    ∀ (fields : List (String × JValue)) (ev : SEvent),
      (fields.foldl (parseV2Step captured) ev).level = ev.level := by
  intro fields
  induction fields with
  | nil => intro ev; rfl
  | cons kv rest ih =>
    intro ev
    simp only [List.foldl_cons]
    rw [ih (parseV2Step captured ev kv)]
    simp only [parseV2Step]
    by_cases h1 : kv.1 = messageFieldName
    · rw [if_pos h1]
    · rw [if_neg h1]
      by_cases h2 : kv.1 = errorFieldName
      · rw [if_pos h2]
      · rw [if_neg h2]
        by_cases h3 : kv.1 = levelFieldName ∨ kv.1 = timestampFieldName
        · rw [if_pos h3]
        · rw [if_neg h3]

/-- Claim C1: under the default policy (enabled set error, fatal, panic; no
breadcrumbs) a warn-level record is dropped with no forward call, an
error-level record triggers exactly one forward call, and a fatal-level
record triggers one forward call followed by a flush bounded by the
configured timeout. -/
theorem dispatch_filter_default_policy
    (captured : List Frame) (d dwarn derr dfatal : RecordBytes) (ft : Int)
    (hwarn : gjsonGetString dwarn levelFieldName = "warn")
    (herr : gjsonGetString derr levelFieldName = "error")
    (hfatal : gjsonGetString dfatal levelFieldName = "fatal") :
    (writeLevelV1 { levels := defaultLevels, withBreadcrumbs := false } captured zWarnLevel d).calls = [] ∧
    (∃ e, (writeLevelV1 { levels := defaultLevels, withBreadcrumbs := false } captured zErrorLevel d).calls
      = [SentryCall.captureEvent e]) ∧
    (writeV2 { levels := defaultLevels, flushTimeout := ft } captured dwarn).calls = [] ∧
    (∃ e, (writeV2 { levels := defaultLevels, flushTimeout := ft } captured derr).calls
      = [SentryCall.captureEvent e]) ∧
    (∃ e, (writeV2 { levels := defaultLevels, flushTimeout := ft } captured dfatal).calls
      = [SentryCall.captureEvent e, SentryCall.flush ft]) := by
  refine ⟨rfl, ⟨_, rfl⟩, ?_, ?_, ?_⟩
  · have hp : parseLogEventV2 { levels := defaultLevels, flushTimeout := ft } captured dwarn = none := by
      simp only [parseLogEventV2, hwarn]
      rfl
    simp only [writeV2, hp]
  · have hp : parseLogEventV2 { levels := defaultLevels, flushTimeout := ft } captured derr =
        some (derr.fields.foldl (parseV2Step captured) { level := "error", logger := "zerolog" }) := by
      simp only [parseLogEventV2, herr]
      rfl
    have hlvl := parseV2_fold_level captured derr.fields
      { level := "error", logger := "zerolog" }
    refine ⟨derr.fields.foldl (parseV2Step captured) { level := "error", logger := "zerolog" }, ?_⟩
    simp only [writeV2, hp]
    rw [if_neg (by rw [hlvl]; decide)]
    simp
  · have hp : parseLogEventV2 { levels := defaultLevels, flushTimeout := ft } captured dfatal =
        some (dfatal.fields.foldl (parseV2Step captured) { level := "fatal", logger := "zerolog" }) := by
      simp only [parseLogEventV2, hfatal]
      rfl
    have hlvl := parseV2_fold_level captured dfatal.fields
      { level := "fatal", logger := "zerolog" }
    refine ⟨dfatal.fields.foldl (parseV2Step captured) { level := "fatal", logger := "zerolog" }, ?_⟩
    simp only [writeV2, hp]
    rw [if_pos (hlvl.trans rfl)]
    rfl

/-- Record whose level field is warn. -/
def recWarn : RecordBytes := { len := 16, fields := [("level", .str "warn")] }

/-- Record whose level field is error. -/
def recErr : RecordBytes := { len := 17, fields := [("level", .str "error")] }

/-- Record whose level field is fatal. -/
def recFatal : RecordBytes := { len := 17, fields := [("level", .str "fatal")] }

/-- Witness for the C1 theorem at concrete records and the default
3-second flush timeout. -/
theorem dispatch_filter_default_policy_witness :
    (writeLevelV1 { levels := defaultLevels, withBreadcrumbs := false } [] zWarnLevel recBasic).calls = [] ∧
    (∃ e, (writeLevelV1 { levels := defaultLevels, withBreadcrumbs := false } [] zErrorLevel recBasic).calls
      = [SentryCall.captureEvent e]) ∧
    (writeV2 { levels := defaultLevels, flushTimeout := 3000000000 } [] recWarn).calls = [] ∧
    (∃ e, (writeV2 { levels := defaultLevels, flushTimeout := 3000000000 } [] recErr).calls
      = [SentryCall.captureEvent e]) ∧
    (∃ e, (writeV2 { levels := defaultLevels, flushTimeout := 3000000000 } [] recFatal).calls
      = [SentryCall.captureEvent e, SentryCall.flush 3000000000]) := by
  exact dispatch_filter_default_policy [] recBasic recWarn recErr recFatal 3000000000 rfl rfl rfl

/-- Loop lemma: the tail drop stops at the first index from the top whose
frame is not of the bridge module (or at index zero). -/
theorem dropSelfLoop_eq (selfMod : String) (frames : List Frame) (a : Nat) :
    ∀ t, a ≤ t →
      (∀ i, a < i → i ≤ t → moduleAt frames i = selfMod) →
      moduleAt frames a ≠ selfMod →
      dropSelfLoop selfMod frames t = a := by
  intro t
  induction t with
  | zero =>
    intro hat _ _
    have ha0 : a = 0 := Nat.le_zero.mp hat
    subst ha0
    rfl
  | succ t ih =>
    intro hat hmid ha
    rcases Nat.lt_or_ge a (t + 1) with h | h
    · have hmod : moduleAt frames (t + 1) = selfMod := hmid (t + 1) (by omega) (by omega)
      simp only [dropSelfLoop, if_pos hmod]
      exact ih (by omega) (fun i h1 h2 => hmid i h1 (by omega)) ha
    · have hae : a = t + 1 := by omega
      subst hae
      simp only [dropSelfLoop, if_neg ha]

/-- Loop lemma: the outer scan finds nothing when no frame below the
threshold (at a positive index) is a zerolog frame. -/
theorem findZerologLoop_none (frames : List Frame) :
    ∀ t, (∀ i, 1 ≤ i → i ≤ t → moduleAt frames i ≠ zerologModule) →
      findZerologLoop frames t = none := by
  intro t
  induction t with
  | zero => intro _; rfl
  | succ t ih =>
    intro h
    simp only [findZerologLoop, if_neg (h (t + 1) (by omega) (by omega))]
    exact ih (fun i h1 h2 => h i h1 (by omega))

/-- Loop lemma: the outer scan returns the highest positive zerolog index at
or below the threshold. -/
theorem findZerologLoop_some (frames : List Frame) (i : Nat) (h1 : 1 ≤ i)
    (hz : moduleAt frames i = zerologModule) :
    ∀ t, i ≤ t →
      (∀ k, i < k → k ≤ t → moduleAt frames k ≠ zerologModule) →
      findZerologLoop frames t = some i := by
  intro t
  induction t with
  | zero => intro hit _; omega
  | succ t ih =>
    intro hit hup
    rcases Nat.lt_or_ge i (t + 1) with hlt | hge
    · simp only [findZerologLoop, if_neg (hup (t + 1) (by omega) (by omega))]
      exact ih (by omega) (fun k hk1 hk2 => hup k hk1 (by omega))
    · have hie : i = t + 1 := by omega
      subst hie
      simp only [findZerologLoop, if_pos hz]

/-- Loop lemma: the inner scan returns the highest non-zerolog index at or
below its start. -/
theorem findNonZerologLoop_some (frames : List Frame) (j : Nat)
    (hj : moduleAt frames j ≠ zerologModule) :
    ∀ t, j ≤ t →
      (∀ k, j < k → k ≤ t → moduleAt frames k = zerologModule) →
      findNonZerologLoop frames t = some j := by
  intro t
  induction t with
  | zero =>
    intro hjt _
    have hj0 : j = 0 := Nat.le_zero.mp hjt
    subst hj0
    simp only [findNonZerologLoop, if_neg hj]
  | succ t ih =>
    intro hjt hmid
    rcases Nat.lt_or_ge j (t + 1) with hlt | hge
    · simp only [findNonZerologLoop, if_pos (hmid (t + 1) (by omega) (by omega))]
      exact ih (by omega) (fun k hk1 hk2 => hmid k hk1 (by omega))
    · have hje : j = t + 1 := by omega
      subst hje
      simp only [findNonZerologLoop, if_neg hj]

/-- Position lemma: indices inside the application prefix carry an
application frame's module. -/
theorem moduleAt_app (A Z S : List Frame) (i : Nat) (hi : i < A.length) :
    ∃ f ∈ A, moduleAt (A ++ Z ++ S) i = f.module := by
  have e1 : (A ++ Z ++ S).getD i defaultFrame = A.getD i defaultFrame := by
    rw [List.getD_append _ _ _ _ (by simp; omega), List.getD_append _ _ _ _ hi]
  refine ⟨A.getD i defaultFrame, ?_, ?_⟩
  · rw [List.getD_eq_getElem _ _ hi]
    exact List.getElem_mem hi
  · unfold moduleAt
    rw [e1]

/-- Position lemma: indices inside the middle block carry a logging-library
frame's module. -/
theorem moduleAt_mid (A Z S : List Frame) (i : Nat)
    (h1 : A.length ≤ i) (h2 : i < A.length + Z.length) :
    ∃ f ∈ Z, moduleAt (A ++ Z ++ S) i = f.module := by
  have hiz : i - A.length < Z.length := by omega
  have e1 : (A ++ Z ++ S).getD i defaultFrame = Z.getD (i - A.length) defaultFrame := by
    rw [List.getD_append _ _ _ _ (by simp; omega), List.getD_append_right _ _ _ _ h1]
  refine ⟨Z.getD (i - A.length) defaultFrame, ?_, ?_⟩
  · rw [List.getD_eq_getElem _ _ hiz]
    exact List.getElem_mem hiz
  · unfold moduleAt
    rw [e1]

/-- Position lemma: indices inside the tail block carry a bridge frame's
module. -/
theorem moduleAt_tail (A Z S : List Frame) (i : Nat)
    (h1 : A.length + Z.length ≤ i) (h2 : i < A.length + Z.length + S.length) :
    ∃ f ∈ S, moduleAt (A ++ Z ++ S) i = f.module := by
  have his : i - (A.length + Z.length) < S.length := by omega
  have e1 : (A ++ Z ++ S).getD i defaultFrame
      = S.getD (i - (A.length + Z.length)) defaultFrame := by
    rw [List.getD_append_right _ _ _ _ (by simp; omega)]
    simp only [List.length_append]
  refine ⟨S.getD (i - (A.length + Z.length)) defaultFrame, ?_, ?_⟩
  · rw [List.getD_eq_getElem _ _ his]
    exact List.getElem_mem his
  · unfold moduleAt
    rw [e1]

/-- Claim C3: on a synthetic oldest-first stack of K application frames,
then M logging-library frames, then N bridge frames (K at least one), the
trimmer returns exactly the K application frames in their original order. -/
theorem trimmer_keeps_application_frames
    (selfMod : String) (A Z S : List Frame)
    (hA : A ≠ [])
    (happ : ∀ f ∈ A, f.module ≠ selfMod ∧ f.module ≠ zerologModule)
    (hzl : ∀ f ∈ Z, f.module = zerologModule)
    (hsl : ∀ f ∈ S, f.module = selfMod)
    (hne : selfMod ≠ zerologModule) :
    trimFrames selfMod (A ++ Z ++ S) = A := by
  have hKpos : 0 < A.length := List.length_pos.mpr hA
  have hlen : (A ++ Z ++ S).length = A.length + Z.length + S.length := by
    rw [List.length_append, List.length_append]
  have happ2 : ∀ i, i < A.length →
      moduleAt (A ++ Z ++ S) i ≠ selfMod ∧ moduleAt (A ++ Z ++ S) i ≠ zerologModule := by
    intro i hi
    obtain ⟨f, hf, he⟩ := moduleAt_app A Z S i hi
    rw [he]
    exact happ f hf
  have hzl2 : ∀ i, A.length ≤ i → i < A.length + Z.length →
      moduleAt (A ++ Z ++ S) i = zerologModule := by
    intro i h1 h2
    obtain ⟨f, hf, he⟩ := moduleAt_mid A Z S i h1 h2
    rw [he]
    exact hzl f hf
  have hsl2 : ∀ i, A.length + Z.length ≤ i → i < A.length + Z.length + S.length →
      moduleAt (A ++ Z ++ S) i = selfMod := by
    intro i h1 h2
    obtain ⟨f, hf, he⟩ := moduleAt_tail A Z S i h1 h2
    rw [he]
    exact hsl f hf
  have hstep2 : dropSelfLoop selfMod (A ++ Z ++ S) ((A ++ Z ++ S).length - 1)
      = A.length + Z.length - 1 := by
    apply dropSelfLoop_eq
    · rw [hlen]; omega
    · intro i hgt hle
      rw [hlen] at hle
      exact hsl2 i (by omega) (by omega)
    · rcases Nat.eq_zero_or_pos Z.length with hM | hM
      · exact (happ2 (A.length + Z.length - 1) (by omega)).1
      · rw [hzl2 (A.length + Z.length - 1) (by omega) (by omega)]
        exact hne.symm
  have hthr : trimThreshold selfMod (A ++ Z ++ S) = A.length - 1 := by
    unfold trimThreshold
    rw [hstep2]
    rcases Nat.eq_zero_or_pos Z.length with hM | hM
    · rw [findZerologLoop_none (A ++ Z ++ S) (A.length + Z.length - 1)
        (fun i h1 h2 => (happ2 i (by omega)).2)]
      show A.length + Z.length - 1 = A.length - 1
      omega
    · rw [findZerologLoop_some (A ++ Z ++ S) (A.length + Z.length - 1) (by omega)
        (hzl2 (A.length + Z.length - 1) (by omega) (by omega))
        (A.length + Z.length - 1) (Nat.le_refl _)
        (fun k hk1 hk2 => absurd hk2 (by omega))]
      show (match findNonZerologLoop (A ++ Z ++ S) (A.length + Z.length - 1 - 1) with
        | none => A.length + Z.length - 1
        | some j => j) = A.length - 1
      rw [findNonZerologLoop_some (A ++ Z ++ S) (A.length - 1)
        ((happ2 (A.length - 1) (by omega)).2)
        (A.length + Z.length - 1 - 1)
        (by omega)
        (fun k hk1 hk2 => hzl2 k (by omega) (by omega))]
  unfold trimFrames
  rw [hthr]
  have hsucc : A.length - 1 + 1 = A.length := by omega
  rw [hsucc, List.append_assoc, List.take_left]

/-- Witness for the C3 theorem on a concrete three-frame stack: one
application frame, one zerolog frame, one bridge frame. -/
theorem trimmer_keeps_application_frames_witness :
    trimFrames zlogsentryModule
      ([{ module := "main", function := "main", filename := "main.go", lineno := 10 }] ++
       [{ module := zerologModule, function := "Log", filename := "log.go", lineno := 20 }] ++
       [{ module := zlogsentryModule, function := "Write", filename := "writer.go", lineno := 30 }])
      = [{ module := "main", function := "main", filename := "main.go", lineno := 10 }] := by
  exact trimmer_keeps_application_frames zlogsentryModule
    [{ module := "main", function := "main", filename := "main.go", lineno := 10 }]
    [{ module := zerologModule, function := "Log", filename := "log.go", lineno := 20 }]
    [{ module := zlogsentryModule, function := "Write", filename := "writer.go", lineno := 30 }]
    (by decide) (by decide) (by decide) (by decide) (by decide)
